import Mathlib

/-!
# Trading-journal core: trade metrics, mistake detection, statistics

A shallow embedding of the computational core of the TradeMind trading-journal
application (TypeScript sources under `src/`), over exact rational arithmetic:

* `calculateTradeMetrics`, `detectMistakes`, `saveTrade`, `saveCalculatorEntry`,
  `getGlobalStats` from `src/services/storage.ts` (the feature-complete
  revision of the storage service, which the specification describes);
* the user-scoped `saveTrade` / `deleteTrade` variants and
  `computeCapitalStats` from the user-scoped storage service;
* the position-sizing `results` computation of the calculator page.

JavaScript `number` is modelled as `ℚ`; the one place where `NaN` matters
(the `exit` argument of `calculateTradeMetrics`) gets a dedicated type.
`localStorage` writes are modelled by returning the updated data for the
caller to persist, mirroring how every function already returns the new list.
-/

namespace TradeMind

/-- Trade direction (`Direction` in `src/types.ts`). -/
inductive Direction
  | long
  | short
deriving DecidableEq, Repr

/-- Trade outcome (`Outcome` in `src/types.ts`).  The storage service also
uses `Outcome.MISSED`; that enum member is absent from the `types.ts` file
present among the sources, so it is modelled from the spec: a "missed" trade
variant that never carries pnl/rMultiple contribution to aggregates. -/
inductive Outcome
  | win
  | loss
  | breakEven
  | opn
  | missed
deriving DecidableEq, Repr

/-- The `exit` argument of `calculateTradeMetrics` (`number | undefined`):
`undef` models `undefined`/`null`, `nan` models a `NaN` number, `val q`
models an ordinary numeric value. -/
inductive ExitPrice
  | undef
  | nan
  | val (q : ℚ)
deriving DecidableEq, Repr

/-- Result shape of `calculateTradeMetrics`. -/
structure TradeMetrics where
  pnl : ℚ
  rMultiple : ℚ
  outcome : Outcome
deriving DecidableEq, Repr

/-- `calculateTradeMetrics` (`src/services/storage.ts`, the revision with the
`null`/`NaN`/`0` exit guard and the `|pnl| < 0.01` break-even snap). -/
def calculateTradeMetrics (direction : Direction) (entry : ℚ) (exit : ExitPrice)
    (stopLoss : ℚ) (size : ℚ) : TradeMetrics :=
  match exit with
  | .undef => { pnl := 0, rMultiple := 0, outcome := .opn }
  | .nan => { pnl := 0, rMultiple := 0, outcome := .opn }
  | .val ex =>
    if ex = 0 then { pnl := 0, rMultiple := 0, outcome := .opn }
    else
      let pnl : ℚ :=
        match direction with
        | .long => (ex - entry) * size
        | .short => (entry - ex) * size
      let riskPerShare : ℚ := |entry - stopLoss|
      let rMultiple : ℚ :=
        if riskPerShare = 0 then 0
        else if pnl > 0 then |ex - entry| / riskPerShare
        else -1 * (|ex - entry| / riskPerShare)
      let outcome : Outcome :=
        if |pnl| < 0.01 then .breakEven
        else if pnl > 0 then .win
        else if pnl < 0 then .loss
        else .breakEven
      { pnl := pnl, rMultiple := rMultiple, outcome := outcome }

/-- The `Trade` record (`src/types.ts`), restricted to the fields the core
computations read.  `date` is the millisecond timestamp
`new Date(trade.date).getTime()` of the ISO date string. -/
structure Trade where
  id : String
  userId : String
  date : ℤ
  pair : String
  direction : Direction
  entryPrice : ℚ
  stopLoss : ℚ
  takeProfit : ℚ
  exitPrice : Option ℚ
  positionSize : ℚ
  riskAmount : ℚ
  setups : List String
  timeframes : List String
  emotions : List String
  mistakes : List String
  pnl : Option ℚ
  rMultiple : Option ℚ
  outcome : Outcome
  capitalImpacting : Option Bool
deriving DecidableEq, Repr

/-- Models `new Date(ms).toDateString()` as used for same-calendar-day
comparison: the local calendar-day index of a millisecond timestamp, with the
local time zone fixed to UTC. -/
def toDateString (ms : ℤ) : ℤ := ms.fdiv 86400000

/-- First-occurrence deduplication, the order-preserving semantics of the
JavaScript `[...new Set(l)]` idiom: `seen` accumulates the elements already
emitted. -/
def jsDedupGo {α : Type} [DecidableEq α] (seen : List α) : List α → List α
  | [] => []
  | a :: l => if a ∈ seen then jsDedupGo seen l else a :: jsDedupGo (a :: seen) l

/-- `[...new Set(l)]`: keep the first occurrence of every element. -/
def jsDedup {α : Type} [DecidableEq α] (l : List α) : List α := jsDedupGo [] l

/-- Membership in the dedup worker: an element appears iff it is in the input
and not already seen. -/
theorem mem_jsDedupGo {α : Type} [DecidableEq α] (x : α) (seen l : List α) :
    x ∈ jsDedupGo seen l ↔ x ∈ l ∧ x ∉ seen := by
  induction l generalizing seen with
  | nil => simp [jsDedupGo]
  | cons a t ih =>
    simp only [jsDedupGo]
    by_cases ha : a ∈ seen
    · rw [if_pos ha, ih, List.mem_cons]
      constructor
      · rintro ⟨hx, hs⟩
        exact ⟨Or.inr hx, hs⟩
      · rintro ⟨hx | hx, hs⟩
        · exact absurd (hx ▸ ha) hs
        · exact ⟨hx, hs⟩
    · rw [if_neg ha, List.mem_cons, ih, List.mem_cons]
      by_cases hxa : x = a
      · subst hxa
        simp [ha]
      · simp [hxa]

/-- Membership is preserved by `jsDedup`. -/
theorem mem_jsDedup {α : Type} [DecidableEq α] (x : α) (l : List α) :
    x ∈ jsDedup l ↔ x ∈ l := by
  simp [jsDedup, mem_jsDedupGo]

/-- The dedup worker produces duplicate-free output. -/
theorem nodup_jsDedupGo {α : Type} [DecidableEq α] (seen l : List α) :
    (jsDedupGo seen l).Nodup := by
  induction l generalizing seen with
  | nil => simp [jsDedupGo]
  | cons a t ih =>
    simp only [jsDedupGo]
    split
    · exact ih _
    · refine List.Nodup.cons ?_ (ih _)
      intro hmem
      rw [mem_jsDedupGo] at hmem
      exact hmem.2 (List.mem_cons_self a _)

/-- `jsDedup` produces duplicate-free output. -/
theorem nodup_jsDedup {α : Type} [DecidableEq α] (l : List α) :
    (jsDedup l).Nodup := nodup_jsDedupGo [] l

/-- The dedup worker only depends on the membership of `seen`. -/
theorem jsDedupGo_congr {α : Type} [DecidableEq α] {s₁ s₂ : List α} (l : List α)
    (h : ∀ x, x ∈ s₁ ↔ x ∈ s₂) : jsDedupGo s₁ l = jsDedupGo s₂ l := by
  induction l generalizing s₁ s₂ with
  | nil => rfl
  | cons a t ih =>
    simp only [jsDedupGo]
    by_cases ha : a ∈ s₁
    · rw [if_pos ha, if_pos ((h a).mp ha)]
      exact ih h
    · rw [if_neg ha, if_neg (fun hc => ha ((h a).mpr hc))]
      refine congrArg (a :: ·) (ih fun x => ?_)
      simp [List.mem_cons, h x]

/-- Splitting the dedup worker over an append. -/
theorem jsDedupGo_append {α : Type} [DecidableEq α] (seen l₁ l₂ : List α) :
    jsDedupGo seen (l₁ ++ l₂)
      = jsDedupGo seen l₁ ++ jsDedupGo (l₁ ++ seen) l₂ := by
  induction l₁ generalizing seen with
  | nil => simp [jsDedupGo]
  | cons a t ih =>
    rw [List.cons_append, List.cons_append]
    simp only [jsDedupGo]
    by_cases ha : a ∈ seen
    · rw [if_pos ha, if_pos ha, ih]
      refine congrArg (jsDedupGo seen t ++ ·) (jsDedupGo_congr _ fun x => ?_)
      simp only [List.mem_append, List.mem_cons]
      constructor
      · exact fun hx => Or.inr hx
      · rintro (rfl | hx)
        · exact Or.inr ha
        · exact hx
    · rw [if_neg ha, if_neg ha, ih, List.cons_append]
      refine congrArg (a :: ·) (congrArg (jsDedupGo (a :: seen) t ++ ·)
        (jsDedupGo_congr _ fun x => ?_))
      simp only [List.mem_append, List.mem_cons]
      tauto

/-- A duplicate-free list disjoint from `seen` passes through the dedup
worker unchanged. -/
theorem jsDedupGo_of_nodup {α : Type} [DecidableEq α] {seen l : List α}
    (hn : l.Nodup) (hd : ∀ x ∈ l, x ∉ seen) : jsDedupGo seen l = l := by
  induction l generalizing seen with
  | nil => rfl
  | cons a t ih =>
    simp only [jsDedupGo]
    rw [if_neg (hd a (List.mem_cons_self a t))]
    refine congrArg (a :: ·) (ih hn.of_cons fun x hx => ?_)
    simp only [List.mem_cons, not_or]
    exact ⟨fun hxa => (List.nodup_cons.mp hn).1 (hxa ▸ hx), hd x (List.mem_cons_of_mem a hx)⟩

/-- `jsDedup` is idempotent. -/
theorem jsDedup_idem {α : Type} [DecidableEq α] (l : List α) :
    jsDedup (jsDedup l) = jsDedup l :=
  jsDedupGo_of_nodup (nodup_jsDedup l) (by simp)

/-- Deduplicating the left part of an append first does not change the
result. -/
theorem jsDedup_append_jsDedup {α : Type} [DecidableEq α] (l A : List α) :
    jsDedup (jsDedup l ++ A) = jsDedup (l ++ A) := by
  unfold jsDedup
  rw [jsDedupGo_append, jsDedupGo_append]
  rw [show jsDedupGo ([] : List α) (jsDedupGo [] l) = jsDedupGo [] l from
    jsDedupGo_of_nodup (nodup_jsDedupGo [] l) (by simp)]
  refine congrArg (jsDedupGo [] l ++ ·) (jsDedupGo_congr _ fun x => ?_)
  simp [mem_jsDedupGo]

/-- Modelled from the spec: `AUTO_DETECTED_MISTAKES` is imported by the
storage service from `types.ts`, but the revision of `types.ts` among the
sources does not define it.  Per the spec, the auto-detectable tags are
exactly the tags the Mistake Detector itself produces, which must be
dropped and recomputed on every detection run. -/
def AUTO_DETECTED_MISTAKES : List String :=
  ["Poor R/R", "No Stop", "Overtrading", "No Discipline"]

/-- The manually-curated tags of a trade: its `mistakes` with every
previously auto-detected tag stripped out (the first line of
`detectMistakes`). -/
def manualOf (trade : Trade) : List String :=
  trade.mistakes.filter (fun m => decide (m ∉ AUTO_DETECTED_MISTAKES))

/-- `detectMistakes` (`src/services/storage.ts`, the revision with the
missed-trade skip and the `No Discipline` rule).  JS truthiness of a numeric
field is `≠ 0`; an optional numeric field is truthy when present and nonzero
(`.getD 0 ≠ 0`). -/
def detectMistakes (trade : Trade) (pastTrades : List Trade) : List String :=
  let detected : List String := manualOf trade
  if trade.outcome = .missed then detected
  else
    let detected :=
      if trade.takeProfit ≠ 0 ∧ trade.stopLoss ≠ 0 ∧ trade.entryPrice ≠ 0 then
        let risk : ℚ := |trade.entryPrice - trade.stopLoss|
        let reward : ℚ := |trade.takeProfit - trade.entryPrice|
        if 0 < risk ∧ reward / risk < 1 then detected ++ ["Poor R/R"] else detected
      else detected
    let detected := if trade.stopLoss = 0 then detected ++ ["No Stop"] else detected
    let detected :=
      if trade.date ≠ 0 then
        let tradeDate := toDateString trade.date
        let tradesToday := (pastTrades.filter (fun t =>
          decide (toDateString t.date = tradeDate ∧ t.id ≠ trade.id
            ∧ t.outcome ≠ .missed))).length
        if 5 ≤ tradesToday then detected ++ ["Overtrading"] else detected
      else detected
    let detected :=
      let ex : ℚ := trade.exitPrice.getD 0
      if trade.outcome = .loss ∧ ex ≠ 0 ∧ trade.stopLoss ≠ 0 then
        if trade.direction = .long ∧ ex < trade.stopLoss then
          detected ++ ["No Discipline"]
        else if trade.direction = .short ∧ trade.stopLoss < ex then
          detected ++ ["No Discipline"]
        else detected
      else detected
    jsDedup detected

/-- The tags the four detection rules of `detectMistakes` push, in push
order; a restatement of the rule conditions used to reason about the
detector. -/
def autosOf (trade : Trade) (pastTrades : List Trade) : List String :=
  (if trade.takeProfit ≠ 0 ∧ trade.stopLoss ≠ 0 ∧ trade.entryPrice ≠ 0 then
      if 0 < |trade.entryPrice - trade.stopLoss|
          ∧ |trade.takeProfit - trade.entryPrice| / |trade.entryPrice - trade.stopLoss| < 1
      then ["Poor R/R"] else []
    else [])
  ++ (if trade.stopLoss = 0 then ["No Stop"] else [])
  ++ (if trade.date ≠ 0 then
        if 5 ≤ (pastTrades.filter (fun t =>
            decide (toDateString t.date = toDateString trade.date ∧ t.id ≠ trade.id
              ∧ t.outcome ≠ .missed))).length
        then ["Overtrading"] else []
      else [])
  ++ (if trade.outcome = .loss ∧ trade.exitPrice.getD 0 ≠ 0 ∧ trade.stopLoss ≠ 0 then
        if trade.direction = .long ∧ trade.exitPrice.getD 0 < trade.stopLoss then
          ["No Discipline"]
        else if trade.direction = .short ∧ trade.stopLoss < trade.exitPrice.getD 0 then
          ["No Discipline"]
        else []
      else [])

/-- A guarded push onto an accumulator is the accumulator followed by a
guarded singleton. -/
theorem ite_push {α : Type} (c : Prop) [Decidable c] (X t : List α) :
    (if c then X ++ t else X) = X ++ (if c then t else []) := by
  split <;> simp

/-- Two-level guarded push. -/
theorem ite_ite_push {α : Type} (co ci : Prop) [Decidable co] [Decidable ci]
    (X t : List α) :
    (if co then (if ci then X ++ t else X) else X)
      = X ++ (if co then (if ci then t else []) else []) := by
  split
  · exact ite_push ..
  · simp

/-- Guarded push with two alternative inner guards. -/
theorem ite_ite3_push {α : Type} (co c1 c2 : Prop) [Decidable co]
    [Decidable c1] [Decidable c2] (X t₁ t₂ : List α) :
    (if co then (if c1 then X ++ t₁ else if c2 then X ++ t₂ else X) else X)
      = X ++ (if co then (if c1 then t₁ else if c2 then t₂ else []) else []) := by
  split
  · split
    · simp
    · exact ite_push ..
  · simp

/-- Normal form of `detectMistakes`: manual tags as-is for a missed trade,
otherwise the deduplicated manual tags followed by the rule-produced tags. -/
theorem detectMistakes_eq (trade : Trade) (pastTrades : List Trade) :
    detectMistakes trade pastTrades
      = if trade.outcome = .missed then manualOf trade
        else jsDedup (manualOf trade ++ autosOf trade pastTrades) := by
  by_cases hm : trade.outcome = .missed
  · simp only [detectMistakes, if_pos hm]
  · simp only [detectMistakes, if_neg hm, autosOf]
    rw [ite_ite_push, ite_push, ite_ite_push, ite_ite3_push]
    simp only [List.append_assoc]

/-- Every tag the detection rules push is auto-detectable. -/
theorem autosOf_subset_auto (trade : Trade) (pastTrades : List Trade) :
    ∀ x ∈ autosOf trade pastTrades, x ∈ AUTO_DETECTED_MISTAKES := by
  intro x hx
  simp only [autosOf, List.mem_append] at hx
  rcases hx with ((hx | hx) | hx) | hx <;>
    (split_ifs at hx <;> simp_all [AUTO_DETECTED_MISTAKES])

/-- The detection rules do not read the trade's `mistakes` field. -/
theorem autosOf_mistakes_irrel (trade : Trade) (pastTrades : List Trade)
    (ms : List String) :
    autosOf { trade with mistakes := ms } pastTrades = autosOf trade pastTrades := rfl

/-- `saveTrade` (`src/services/storage.ts`): the transformation performed on
the stored trade list; the `localStorage` write persists the returned list.
Auto-detection reassigns `mistakes` before the update-or-prepend check. -/
def saveTrade (trade : Trade) (currentTrades : List Trade) : List Trade :=
  let saved := { trade with mistakes := detectMistakes trade currentTrades }
  match currentTrades.findIdx? (fun t => decide (t.id = saved.id)) with
  | some index => currentTrades.set index saved
  | none => saved :: currentTrades

/-- `t.pnl || 0`. -/
def pnlOf (t : Trade) : ℚ := t.pnl.getD 0

/-- `t.rMultiple || 0`. -/
def rOf (t : Trade) : ℚ := t.rMultiple.getD 0

/-- `l.reduce((acc, t) => acc + (t.pnl || 0), 0)`. -/
def sumPnl (l : List Trade) : ℚ := l.foldl (fun acc t => acc + pnlOf t) 0

/-- Closed trades of `getGlobalStats`: everything but Open and Missed, in
chronological order.  `Array.prototype.sort` with the comparator
`dateA - dateB` is a stable ascending sort, modelled by insertion sort. -/
def closedSorted (trades : List Trade) : List Trade :=
  List.insertionSort (fun a b => a.date ≤ b.date)
    (trades.filter (fun t => decide (t.outcome ≠ .opn ∧ t.outcome ≠ .missed)))

/-- Gross winning pnl of `getGlobalStats`. -/
def grossWinOf (trades : List Trade) : ℚ :=
  sumPnl ((closedSorted trades).filter (fun t => decide (t.outcome = .win)))

/-- Gross losing pnl (absolute value) of `getGlobalStats`. -/
def grossLossOf (trades : List Trade) : ℚ :=
  |sumPnl ((closedSorted trades).filter (fun t => decide (t.outcome = .loss)))|

/-- `parseFloat(q.toFixed(digits))`: round to `digits` decimal places, ties
towards positive infinity (the ECMAScript `toFixed` tie-break). -/
def jsToFixed (digits : ℕ) (q : ℚ) : ℚ :=
  (⌊q * (10 : ℚ) ^ digits + 1 / 2⌋ : ℚ) / (10 : ℚ) ^ digits

/-- Accumulator of the streak loop in `getGlobalStats`. -/
structure StreakAcc where
  currentStreak : ℤ
  maxWinStreak : ℕ
  maxLossStreak : ℕ
  tempWin : ℕ
  tempLoss : ℕ
deriving DecidableEq, Repr

/-- One iteration of the streak loop in `getGlobalStats`. -/
def streakStep (s : StreakAcc) (t : Trade) : StreakAcc :=
  let s' :=
    if t.outcome = .win then
      { s with tempWin := s.tempWin + 1, tempLoss := 0,
               currentStreak := if s.currentStreak < 0 then 1 else s.currentStreak + 1 }
    else if t.outcome = .loss then
      { s with tempLoss := s.tempLoss + 1, tempWin := 0,
               currentStreak := if s.currentStreak > 0 then -1 else s.currentStreak - 1 }
    else
      { s with tempWin := 0, tempLoss := 0, currentStreak := 0 }
  { s' with maxWinStreak := max s'.maxWinStreak s'.tempWin,
            maxLossStreak := max s'.maxLossStreak s'.tempLoss }

/-- One iteration of the max-drawdown loop in `getGlobalStats`; the state is
`(runningPnL, peak, maxDD)`. -/
def ddStep (s : ℚ × ℚ × ℚ) (t : Trade) : ℚ × ℚ × ℚ :=
  let running := s.1 + pnlOf t
  let peak := if running > s.2.1 then running else s.2.1
  let dd := peak - running
  (running, peak, if dd > s.2.2 then dd else s.2.2)

/-- Result record of `getGlobalStats` (the `TradeStats` shape this revision
of the storage service returns). -/
structure TradeStats where
  totalTrades : ℕ
  winRate : ℚ
  grossPnL : ℚ
  averageR : ℚ
  profitFactor : ℚ
  bestTrade : ℚ
  worstTrade : ℚ
  expectancy : ℚ
  maxDrawdown : ℚ
  currentStreak : ℤ
  maxWinStreak : ℕ
  maxLossStreak : ℕ
deriving DecidableEq, Repr

/-- `getGlobalStats` (`src/services/storage.ts`). -/
def getGlobalStats (trades : List Trade) : TradeStats :=
  let closedTrades := closedSorted trades
  let wins := closedTrades.filter (fun t => decide (t.outcome = .win))
  let losses := closedTrades.filter (fun t => decide (t.outcome = .loss))
  let totalTrades := closedTrades.length
  let winRate : ℚ :=
    if totalTrades = 0 then 0 else ((wins.length : ℚ) / (totalTrades : ℚ)) * 100
  let grossPnL := sumPnl closedTrades
  let avgR : ℚ :=
    if totalTrades = 0 then 0
    else (closedTrades.foldl (fun acc t => acc + rOf t) 0) / (totalTrades : ℚ)
  let grossWin := sumPnl wins
  let grossLoss := |sumPnl losses|
  let profitFactor : ℚ :=
    if grossLoss = 0 then (if grossWin = 0 then 0 else 99.99) else grossWin / grossLoss
  let avgWin : ℚ := if wins.length = 0 then 0 else grossWin / (wins.length : ℚ)
  let avgLoss : ℚ := if losses.length = 0 then 0 else grossLoss / (losses.length : ℚ)
  let expectancy := avgWin * (winRate / 100) - avgLoss * (1 - winRate / 100)
  let streaks := closedTrades.foldl streakStep ⟨0, 0, 0, 0, 0⟩
  let dd := closedTrades.foldl ddStep (0, 0, 0)
  { totalTrades := totalTrades
    winRate := jsToFixed 1 winRate
    grossPnL := jsToFixed 2 grossPnL
    averageR := jsToFixed 2 avgR
    profitFactor := jsToFixed 2 profitFactor
    bestTrade := closedTrades.foldl (fun acc t => max acc (pnlOf t)) 0
    worstTrade := closedTrades.foldl (fun acc t => min acc (pnlOf t)) 0
    expectancy := jsToFixed 2 expectancy
    maxDrawdown := jsToFixed 2 dd.2.2
    currentStreak := streaks.currentStreak
    maxWinStreak := streaks.maxWinStreak
    maxLossStreak := streaks.maxLossStreak }

/-- One point of the equity curve (`EquityPoint` in `src/types.ts`). -/
structure EquityPoint where
  date : ℤ
  equity : ℚ
  realizedPnL : ℚ
  unrealizedPnL : ℚ
deriving DecidableEq, Repr

/-- `StreakStats` (`src/types.ts`). -/
structure StreakStats where
  maxWinStreak : ℕ
  maxLossStreak : ℕ
deriving DecidableEq, Repr

/-- `CapitalSettings` (`src/types.ts`). -/
structure CapitalSettings where
  startingBalance : ℚ
  maxDrawdownAlertPct : ℚ
  defaultRiskPerTradePct : Option ℚ
deriving DecidableEq, Repr

/-- `CapitalStats` (`src/types.ts`).  The `sharpeRatio` field is omitted from
this rational-arithmetic embedding: it is `mean/Math.sqrt(variance)` and a
square root is in general irrational; no claim concerns it. -/
structure CapitalStats where
  startingBalance : ℚ
  currentBalance : ℚ
  realizedPnL : ℚ
  unrealizedPnL : ℚ
  netGrowthPct : ℚ
  maxDrawdown : ℚ
  maxDrawdownPct : ℚ
  avgRPerTrade : ℚ
  equityCurve : List EquityPoint
  streaks : StreakStats
deriving DecidableEq, Repr

/-- Trades whose pnl impacts capital: `t.capitalImpacting !== false`. -/
def impactingOf (trades : List Trade) : List Trade :=
  trades.filter (fun t => decide (t.capitalImpacting ≠ some false))

/-- Closed capital-impacting trades of `computeCapitalStats` (this filter
keeps every outcome but Open). -/
def capClosedOf (trades : List Trade) : List Trade :=
  (impactingOf trades).filter (fun t => decide (t.outcome ≠ .opn))

/-- Closed capital-impacting trades in chronological order. -/
def capSortedOf (trades : List Trade) : List Trade :=
  List.insertionSort (fun a b => a.date ≤ b.date) (capClosedOf trades)

/-- Accumulator of the equity-curve loop in `computeCapitalStats`. -/
structure CapAcc where
  equity : ℚ
  peakEquity : ℚ
  maxDrawdown : ℚ
  points : List EquityPoint
deriving DecidableEq, Repr

/-- One iteration of the equity-curve loop in `computeCapitalStats`. -/
def capStep (realized : ℚ) (acc : CapAcc) (t : Trade) : CapAcc :=
  let equity := acc.equity + pnlOf t
  let peakEquity := max acc.peakEquity equity
  let dd := peakEquity - equity
  { equity := equity
    peakEquity := peakEquity
    maxDrawdown := if dd > acc.maxDrawdown then dd else acc.maxDrawdown
    points := acc.points ++
      [{ date := t.date, equity := equity, realizedPnL := realized, unrealizedPnL := 0 }] }

/-- One iteration of the streak loop in `computeCapitalStats`; the state is
`(currentWin, currentLoss, maxWinStreak, maxLossStreak)`. -/
def capStreakStep (s : ℕ × ℕ × ℕ × ℕ) (t : Trade) : ℕ × ℕ × ℕ × ℕ :=
  let cw := if t.outcome = .win then s.1 + 1 else 0
  let cl := if t.outcome = .loss then s.2.1 + 1 else 0
  (cw, cl, if cw > s.2.2.1 then cw else s.2.2.1, if cl > s.2.2.2 then cl else s.2.2.2)

/-- `computeCapitalStats` (user-scoped storage service).
`settings.startingBalance || 0` is the identity on `ℚ` and drops out. -/
def computeCapitalStats (trades : List Trade) (settings : CapitalSettings) :
    CapitalStats :=
  let startingBalance := settings.startingBalance
  let realizedPnL := sumPnl (capClosedOf trades)
  let unrealizedPnL : ℚ := 0
  let acc := (capSortedOf trades).foldl (capStep realizedPnL)
    { equity := startingBalance, peakEquity := startingBalance, maxDrawdown := 0, points := [] }
  let currentBalance := startingBalance + realizedPnL + unrealizedPnL
  let netGrowthPct :=
    if startingBalance = 0 then 0
    else (currentBalance - startingBalance) / startingBalance * 100
  let maxDrawdownPct :=
    if acc.peakEquity > 0 then acc.maxDrawdown / acc.peakEquity * 100 else 0
  let rValues := (capClosedOf trades).filterMap (fun t => t.rMultiple)
  let avgRPerTrade :=
    if rValues.length = 0 then 0
    else rValues.foldl (· + ·) 0 / (rValues.length : ℚ)
  let streaks := (capSortedOf trades).foldl capStreakStep (0, 0, 0, 0)
  { startingBalance := startingBalance
    currentBalance := currentBalance
    realizedPnL := realizedPnL
    unrealizedPnL := unrealizedPnL
    netGrowthPct := netGrowthPct
    maxDrawdown := acc.maxDrawdown
    maxDrawdownPct := maxDrawdownPct
    avgRPerTrade := avgRPerTrade
    equityCurve := acc.points
    streaks := { maxWinStreak := streaks.2.2.1, maxLossStreak := streaks.2.2.2 } }

/-- Spec-side running-equity function: the successive balances obtained by
adding a pnl list to a starting balance one element at a time. -/
def cumEquity (b : ℚ) : List ℚ → List ℚ
  | [] => []
  | p :: ps => (b + p) :: cumEquity (b + p) ps

/-- Risk-input mode of the position calculator (`CalculatorMode` in
`src/types.ts`): percent of balance or fixed dollars. -/
inductive CalculatorMode
  | percent
  | fixed
deriving DecidableEq, Repr

/-- Modelled from the spec: `CalculatorTarget` (`'UNITS' | 'VALUE'`) is
imported by the calculator page but absent from the `types.ts` revision among
the sources; it selects the price-level-based or stop-percent-based mode. -/
inductive CalculatorTarget
  | units
  | value
deriving DecidableEq, Repr

/-- A saved position-sizing computation (`CalculatorEntry` in
`src/types.ts`). -/
structure CalculatorEntry where
  id : String
  userId : String
  date : ℤ
  mode : CalculatorMode
  balance : ℚ
  riskInput : ℚ
  entryPrice : ℚ
  stopLoss : ℚ
  leverage : ℚ
  positionSize : ℚ
  positionValue : ℚ
  dollarRisk : ℚ
deriving DecidableEq, Repr

/-- `saveCalculatorEntry` (`src/services/storage.ts`): prepend the entry and
keep only the first 50 (`[entry, ...current].slice(0, 50)`). -/
def saveCalculatorEntry (entry : CalculatorEntry) (current : List CalculatorEntry) :
    List CalculatorEntry :=
  (entry :: current).take 50

/-- The dollar risk of the position calculator: percent of balance or the
fixed amount itself. -/
def dollarRiskOf (mode : CalculatorMode) (balance riskInput : ℚ) : ℚ :=
  match mode with
  | .percent => balance * (riskInput / 100)
  | .fixed => riskInput

/-- Result shape of the calculator's `results` computation. -/
structure CalcResults where
  valid : Bool
  positionSize : ℚ
  positionValue : ℚ
  dollarRisk : ℚ
deriving DecidableEq, Repr

/-- The `results` memo of the position-calculator page.  `entryPrice`,
`stopLoss` and `stopLossPercent` are the `Number(...)` conversions of the
form fields (an empty field converts to `0`). -/
def results (targetMode : CalculatorTarget) (mode : CalculatorMode)
    (balance riskInput entryPrice stopLoss stopLossPercent : ℚ) : CalcResults :=
  let dollarRisk := dollarRiskOf mode balance riskInput
  match targetMode with
  | .units =>
    let dist := |entryPrice - stopLoss|
    if 0 < entryPrice ∧ 0 < stopLoss ∧ 0 < dist ∧ 0 < dollarRisk then
      let positionSize := dollarRisk / dist
      { valid := true, positionSize := positionSize,
        positionValue := positionSize * entryPrice, dollarRisk := dollarRisk }
    else
      { valid := false, positionSize := 0, positionValue := 0, dollarRisk := dollarRisk }
  | .value =>
    let slPct := stopLossPercent / 100
    if 0 < slPct ∧ 0 < dollarRisk then
      let positionValue := dollarRisk / slPct
      { valid := true,
        positionSize := if 0 < entryPrice then positionValue / entryPrice else 0,
        positionValue := positionValue, dollarRisk := dollarRisk }
    else
      { valid := false, positionSize := 0, positionValue := 0, dollarRisk := dollarRisk }

/-- An immutable audit record of a trade update (`TradeHistoryEntry` in
`src/types.ts`). -/
structure TradeHistoryEntry where
  id : String
  userId : String
  tradeId : String
  timestamp : ℤ
  before : Trade
  after : Trade
deriving DecidableEq, Repr

/-- The per-user keyed state behind the user-scoped storage service: the
trade list and the trade-update history of each user id. -/
structure ScopedStore where
  trades : String → List Trade
  tradeHistory : String → List TradeHistoryEntry

/-- `trade.userId || getCurrentUserId()`: an explicit owner id wins when it
is a non-empty string, otherwise the current session's user id (if any) is
used. -/
def resolveUid (explicitId : String) (current : Option String) : Option String :=
  if explicitId ≠ "" then some explicitId else current

/-- The user-scoped `saveTrade`: resolves the owner, throws
`'User not authenticated'` before any write when no owner is resolvable,
otherwise records an update history entry (on update) and writes the new
list under the owner's key.  `crypto.randomUUID()` and `new Date()` are
passed in as `freshId` / `now`; `current` is `getCurrentUserId()`. -/
def saveTradeScoped (freshId : String) (now : ℤ) (current : Option String)
    (trade : Trade) (store : ScopedStore) : Except String (List Trade) × ScopedStore :=
  match resolveUid trade.userId current with
  | none => (Except.error "User not authenticated", store)
  | some uid =>
    let owned := { trade with userId := uid }
    let currentTrades := store.trades uid
    let saved := { owned with mistakes := detectMistakes owned currentTrades }
    match currentTrades.findIdx? (fun t => decide (t.id = saved.id)) with
    | some index =>
      let previous := currentTrades.getD index saved
      let entry : TradeHistoryEntry :=
        { id := freshId, userId := uid, tradeId := saved.id, timestamp := now,
          before := previous, after := saved }
      let newTrades := currentTrades.set index saved
      (Except.ok newTrades,
        { trades := fun k => if k = uid then newTrades else store.trades k,
          tradeHistory := fun k =>
            if k = uid then entry :: store.tradeHistory k else store.tradeHistory k })
    | none =>
      let newTrades := saved :: currentTrades
      (Except.ok newTrades,
        { store with trades := fun k => if k = uid then newTrades else store.trades k })

/-- The user-scoped `deleteTrade`: resolves the owner from the optional
`userId` argument or the session, throws `'User not authenticated'` before
any write when no owner is resolvable, otherwise filters the owner's list. -/
def deleteTradeScoped (id : String) (userId : Option String) (current : Option String)
    (store : ScopedStore) : Except String (List Trade) × ScopedStore :=
  match (match userId with | some u => resolveUid u current | none => current) with
  | none => (Except.error "User not authenticated", store)
  | some uid =>
    let newTrades := (store.trades uid).filter (fun t => decide (t.id ≠ id))
    (Except.ok newTrades,
      { store with trades := fun k => if k = uid then newTrades else store.trades k })

/-- **C1.**  For every direction, entry price, stop-loss and size, calling
`calculateTradeMetrics` with an exit price that is `undefined`, `NaN` or
exactly `0` returns `pnl = 0`, `rMultiple = 0` and outcome `Open`. -/
theorem calculateTradeMetrics_open_on_unusable_exit
    (direction : Direction) (entry stopLoss size : ℚ) :
    calculateTradeMetrics direction entry .undef stopLoss size
      = { pnl := 0, rMultiple := 0, outcome := .opn }
    ∧ calculateTradeMetrics direction entry .nan stopLoss size
      = { pnl := 0, rMultiple := 0, outcome := .opn }
    ∧ calculateTradeMetrics direction entry (.val 0) stopLoss size
      = { pnl := 0, rMultiple := 0, outcome := .opn } := by
  refine ⟨rfl, rfl, ?_⟩
  simp [calculateTradeMetrics]

/-- Projection of `calculateTradeMetrics` on a usable exit: the pnl formula. -/
theorem calculateTradeMetrics_val_pnl (direction : Direction)
    (entry stopLoss size ex : ℚ) (hex : ex ≠ 0) :
    (calculateTradeMetrics direction entry (.val ex) stopLoss size).pnl
      = match direction with
        | .long => (ex - entry) * size
        | .short => (entry - ex) * size := by
  simp [calculateTradeMetrics, hex]

/-- Projection of `calculateTradeMetrics` on a usable exit: the rMultiple
formula. -/
theorem calculateTradeMetrics_val_rMultiple (direction : Direction)
    (entry stopLoss size ex : ℚ) (hex : ex ≠ 0) :
    (calculateTradeMetrics direction entry (.val ex) stopLoss size).rMultiple
      = if |entry - stopLoss| = 0 then 0
        else if (calculateTradeMetrics direction entry (.val ex) stopLoss size).pnl > 0
          then |ex - entry| / |entry - stopLoss|
          else -1 * (|ex - entry| / |entry - stopLoss|) := by
  simp [calculateTradeMetrics, hex]

/-- **C2.**  For every closed trade (exit price a usable non-zero number),
`calculateTradeMetrics` returns `pnl = (exit - entry) * size` for Long and
`(entry - exit) * size` for Short; `rMultiple` is
`|exit - entry| / |entry - stopLoss|` when `pnl > 0` and the negative of that
quotient otherwise, and `0` whenever `|entry - stopLoss| = 0`; in particular
Long, entry 50000, stop 49500, exit 51000, size 1 gives pnl 1000,
rMultiple 2 and outcome Win. -/
theorem calculateTradeMetrics_closed_spec
    (direction : Direction) (entry stopLoss size : ℚ) (ex : ℚ) (hex : ex ≠ 0) :
    ((calculateTradeMetrics direction entry (.val ex) stopLoss size).pnl
        = match direction with
          | .long => (ex - entry) * size
          | .short => (entry - ex) * size)
    ∧ (|entry - stopLoss| = 0 →
        (calculateTradeMetrics direction entry (.val ex) stopLoss size).rMultiple = 0)
    ∧ (|entry - stopLoss| ≠ 0 →
        (calculateTradeMetrics direction entry (.val ex) stopLoss size).rMultiple
          = (if (calculateTradeMetrics direction entry (.val ex) stopLoss size).pnl > 0
             then |ex - entry| / |entry - stopLoss|
             else -(|ex - entry| / |entry - stopLoss|)))
    ∧ calculateTradeMetrics .long 50000 (.val 51000) 49500 1
        = { pnl := 1000, rMultiple := 2, outcome := .win } := by
  refine ⟨?_, ?_, ?_, ?_⟩
  · exact calculateTradeMetrics_val_pnl direction entry stopLoss size ex hex
  · intro h
    rw [calculateTradeMetrics_val_rMultiple direction entry stopLoss size ex hex, if_pos h]
  · intro h
    rw [calculateTradeMetrics_val_rMultiple direction entry stopLoss size ex hex, if_neg h]
    split <;> ring
  · have h1 : |(50000 : ℚ) - 49500| = 500 := by norm_num
    have h2 : |(51000 : ℚ) - 50000| = 1000 := by norm_num
    have h3 : ((51000 : ℚ) - 50000) * 1 = 1000 := by norm_num
    simp [calculateTradeMetrics, h1, h2, h3]
    norm_num

/-- Witness for `calculateTradeMetrics_closed_spec` at a concrete closed
trade. -/
theorem calculateTradeMetrics_closed_spec_witness :
    (calculateTradeMetrics .long 50000 (.val 51000) 49500 1).pnl
      = (51000 - 50000) * 1 := by
  have h := calculateTradeMetrics_closed_spec .long 50000 49500 1 51000 (by norm_num)
  exact h.1

end TradeMind

namespace TradeMind

/-- Manual tags never carry auto-detectable tags. -/
theorem manualOf_no_auto (tr : Trade) :
    ∀ m ∈ manualOf tr, m ∉ AUTO_DETECTED_MISTAKES := by
  intro m hm
  simp only [manualOf, List.mem_filter, decide_eq_true_eq] at hm
  exact hm.2

/-- Stripping auto-detectable tags is idempotent. -/
theorem manualOf_filter_self (tr : Trade) :
    (manualOf tr).filter (fun m => decide (m ∉ AUTO_DETECTED_MISTAKES)) = manualOf tr := by
  rw [List.filter_eq_self]
  intro m hm
  simpa using manualOf_no_auto tr m hm

/-- The manual tags of a trade whose `mistakes` were set to a detection
result are the deduplicated manual tags of the original trade. -/
theorem manualOf_of_detect (tr : Trade) (ps : List Trade)
    (h : tr.outcome ≠ .missed) :
    manualOf { tr with mistakes := detectMistakes tr ps } = jsDedup (manualOf tr) := by
  show (detectMistakes tr ps).filter (fun m => decide (m ∉ AUTO_DETECTED_MISTAKES))
    = jsDedup (manualOf tr)
  rw [detectMistakes_eq, if_neg h, jsDedup, jsDedupGo_append, List.filter_append]
  have h1 : (jsDedupGo [] (manualOf tr)).filter
      (fun m => decide (m ∉ AUTO_DETECTED_MISTAKES)) = jsDedupGo [] (manualOf tr) := by
    rw [List.filter_eq_self]
    intro m hm
    rw [mem_jsDedupGo] at hm
    simpa using manualOf_no_auto tr m hm.1
  have h2 : (jsDedupGo (manualOf tr ++ []) (autosOf tr ps)).filter
      (fun m => decide (m ∉ AUTO_DETECTED_MISTAKES)) = [] := by
    rw [List.filter_eq_nil_iff]
    intro m hm
    rw [mem_jsDedupGo] at hm
    simpa using autosOf_subset_auto tr ps m hm.1
  rw [h1, h2, List.append_nil]
  rfl

/-- **C4 (amended).**  Re-running `detectMistakes` on a trade whose
`mistakes` were set to a previous detection result (same prior trades)
returns the same tag list; the result is duplicate-free whenever the trade's
own mistakes list is duplicate-free or the trade is not a missed trade (a
missed trade returns its manual tags unprocessed, so duplicates already
among them survive); manually-added tags outside the auto-detectable tag
set are never removed; and the presence of every auto-detectable tag is
recomputed independently of the incoming `mistakes` field. -/
theorem detectMistakes_refresh (tr : Trade) (ps : List Trade) :
    detectMistakes { tr with mistakes := detectMistakes tr ps } ps = detectMistakes tr ps
    ∧ ((tr.mistakes.Nodup ∨ tr.outcome ≠ .missed) → (detectMistakes tr ps).Nodup)
    ∧ (∀ m ∈ tr.mistakes, m ∉ AUTO_DETECTED_MISTAKES → m ∈ detectMistakes tr ps)
    ∧ (∀ a ∈ AUTO_DETECTED_MISTAKES,
        (a ∈ detectMistakes tr ps ↔ a ∈ detectMistakes { tr with mistakes := [] } ps)) := by
  by_cases h : tr.outcome = .missed
  · refine ⟨?_, ?_, ?_, ?_⟩
    · rw [detectMistakes_eq tr ps, if_pos h,
        detectMistakes_eq { tr with mistakes := manualOf tr } ps, if_pos h]
      exact manualOf_filter_self tr
    · intro hn
      rcases hn with hn | hn
      · rw [detectMistakes_eq tr ps, if_pos h]
        exact hn.filter _
      · exact absurd h hn
    · intro m hm hna
      rw [detectMistakes_eq tr ps, if_pos h]
      simp only [manualOf, List.mem_filter, decide_eq_true_eq]
      exact ⟨hm, hna⟩
    · intro a ha
      rw [detectMistakes_eq tr ps, if_pos h,
        detectMistakes_eq { tr with mistakes := ([] : List String) } ps, if_pos h]
      constructor
      · intro hmem
        exact absurd ha (manualOf_no_auto tr a hmem)
      · intro hmem
        simp [manualOf] at hmem
  · refine ⟨?_, ?_, ?_, ?_⟩
    · rw [detectMistakes_eq { tr with mistakes := detectMistakes tr ps } ps, if_neg h,
        manualOf_of_detect tr ps h, autosOf_mistakes_irrel,
        detectMistakes_eq tr ps, if_neg h]
      exact jsDedup_append_jsDedup (manualOf tr) (autosOf tr ps)
    · intro _
      rw [detectMistakes_eq tr ps, if_neg h]
      exact nodup_jsDedup _
    · intro m hm hna
      rw [detectMistakes_eq tr ps, if_neg h, mem_jsDedup, List.mem_append]
      left
      simp only [manualOf, List.mem_filter, decide_eq_true_eq]
      exact ⟨hm, hna⟩
    · intro a ha
      rw [detectMistakes_eq tr ps, if_neg h,
        detectMistakes_eq { tr with mistakes := ([] : List String) } ps, if_neg h,
        autosOf_mistakes_irrel, mem_jsDedup, mem_jsDedup, List.mem_append,
        List.mem_append]
      constructor
      · rintro (hmem | hmem)
        · exact absurd ha (manualOf_no_auto tr a hmem)
        · exact Or.inr hmem
      · rintro (hmem | hmem)
        · simp [manualOf] at hmem
        · exact Or.inr hmem

end TradeMind

namespace TradeMind

/-- A missed trade carrying a duplicated manual tag. -/
def missedDupTrade : Trade :=
  { id := "c4", userId := "u1", date := 1, pair := "BTC/USDT", direction := .long,
    entryPrice := 100, stopLoss := 90, takeProfit := 120, exitPrice := none,
    positionSize := 1, riskAmount := 1, setups := [], timeframes := [],
    emotions := [], mistakes := ["Chase", "Chase"], pnl := none, rMultiple := none,
    outcome := .missed, capitalImpacting := some true }

/-- **C4, counterexample.**  On a missed trade whose manual mistakes list
contains a duplicate, `detectMistakes` returns the duplicate unchanged (the
missed-trade early return skips deduplication), so re-running detection does
not yield a duplicate-free tag list as the claim states. -/
theorem detectMistakes_nodup_counterexample :
    detectMistakes missedDupTrade [] = ["Chase", "Chase"]
    ∧ detectMistakes
        { missedDupTrade with mistakes := detectMistakes missedDupTrade [] } []
        = ["Chase", "Chase"]
    ∧ ¬ (detectMistakes
        { missedDupTrade with mistakes := detectMistakes missedDupTrade [] } []).Nodup :=
  ⟨rfl, rfl, by decide⟩

/-- An ordinary (non-missed) trade with one manual tag. -/
def manualTagTrade : Trade :=
  { id := "c4w", userId := "u1", date := 1, pair := "BTC/USDT", direction := .long,
    entryPrice := 100, stopLoss := 90, takeProfit := 120, exitPrice := none,
    positionSize := 1, riskAmount := 1, setups := [], timeframes := [],
    emotions := [], mistakes := ["Chase"], pnl := none, rMultiple := none,
    outcome := .opn, capitalImpacting := some true }

/-- Witness for `detectMistakes_refresh` at a concrete non-missed trade. -/
theorem detectMistakes_refresh_witness :
    (detectMistakes manualTagTrade []).Nodup :=
  (detectMistakes_refresh manualTagTrade []).2.1 (Or.inr (by decide))

/-- One of six trades logged on the same calendar day (`ms` lies within the
first day of the epoch). -/
def sameDayTrade (i : String) (ms : ℤ) : Trade :=
  { id := i, userId := "u", date := ms, pair := "EUR/USD", direction := .long,
    entryPrice := 0, stopLoss := 0, takeProfit := 0, exitPrice := none,
    positionSize := 0, riskAmount := 0, setups := [], timeframes := [],
    emotions := [], mistakes := [], pnl := none, rMultiple := none,
    outcome := .opn, capitalImpacting := some true }

/-- Six same-day trades saved in sequence through `saveTrade` (which runs
detection against the already-stored trades); `saveTrade` prepends, so the
head of the result is the sixth (last-saved) trade. -/
def overtradingScenario : List Trade :=
  [sameDayTrade "s1" 1, sameDayTrade "s2" 2, sameDayTrade "s3" 3,
   sameDayTrade "s4" 4, sameDayTrade "s5" 5, sameDayTrade "s6" 6].foldl
    (fun acc t => saveTrade t acc) []

/-- **C5.**  For a dated, non-missed trade, `detectMistakes` flags
`Overtrading` iff at least 5 prior trades — excluding the trade itself and
missed trades — fall on the same local calendar day; in the six-saves-one-day
scenario the sixth saved trade is flagged and the first five are not. -/
theorem detectMistakes_overtrading (tr : Trade) (ps : List Trade)
    (h1 : tr.outcome ≠ .missed) (h2 : tr.date ≠ 0) :
    ("Overtrading" ∈ detectMistakes tr ps ↔
      5 ≤ (ps.filter (fun t => decide (toDateString t.date = toDateString tr.date
        ∧ t.id ≠ tr.id ∧ t.outcome ≠ .missed))).length)
    ∧ overtradingScenario.map (fun t => decide ("Overtrading" ∈ t.mistakes))
        = [true, false, false, false, false, false] := by
  constructor
  · rw [detectMistakes_eq, if_neg h1, mem_jsDedup, List.mem_append]
    constructor
    · rintro (hm | ha)
      · exact absurd (by decide : "Overtrading" ∈ AUTO_DETECTED_MISTAKES)
          (manualOf_no_auto tr _ hm)
      · simp only [autosOf, List.mem_append] at ha
        rcases ha with ((hx | hx) | hx) | hx
        · split_ifs at hx <;> simp_all
        · split_ifs at hx <;> simp_all
        · split_ifs at hx <;> simp_all
        · split_ifs at hx <;> simp_all
    · intro hc
      right
      simp only [autosOf, List.mem_append]
      left; right
      rw [if_pos h2, if_pos hc]
      exact List.mem_cons_self _ _
  · decide

/-- Witness for `detectMistakes_overtrading`: the sixth same-day trade has
five same-day prior trades, so it is flagged. -/
theorem detectMistakes_overtrading_witness :
    "Overtrading" ∈ detectMistakes (sameDayTrade "s6" 6)
      [sameDayTrade "s1" 1, sameDayTrade "s2" 2, sameDayTrade "s3" 3,
       sameDayTrade "s4" 4, sameDayTrade "s5" 5] :=
  ((detectMistakes_overtrading (sameDayTrade "s6" 6)
      [sameDayTrade "s1" 1, sameDayTrade "s2" 2, sameDayTrade "s3" 3,
       sameDayTrade "s4" 4, sameDayTrade "s5" 5]
      (by decide) (by decide)).1).mpr (by decide)

end TradeMind

namespace TradeMind

/-- After any non-empty sequence of saves the calculator history holds at
most 50 entries. -/
theorem saveCalculatorEntry_foldl_le (es : List CalculatorEntry)
    (current : List CalculatorEntry) (h : es ≠ []) :
    (es.foldl (fun acc e' => saveCalculatorEntry e' acc) current).length ≤ 50 := by
  induction es generalizing current with
  | nil => exact absurd rfl h
  | cons e' rest ih =>
    rw [List.foldl_cons]
    rcases rest with _ | ⟨e2, rest2⟩
    · simp [saveCalculatorEntry, List.length_take]
    · exact ih _ (by simp)

/-- **C8.**  `saveCalculatorEntry` prepends the new entry and keeps the first
50 entries of the result: the history never exceeds 50 entries after any
non-empty sequence of saves; below the cap the save is a pure prepend, and at
the cap exactly the last element of the stored list — the oldest entry by
insertion order, regardless of any date field — is evicted. -/
theorem saveCalculatorEntry_cap (e : CalculatorEntry) (current : List CalculatorEntry) :
    saveCalculatorEntry e current = (e :: current).take 50
    ∧ (saveCalculatorEntry e current).length ≤ 50
    ∧ (current.length ≤ 49 → saveCalculatorEntry e current = e :: current)
    ∧ (current.length = 50 → saveCalculatorEntry e current = e :: current.dropLast)
    ∧ (∀ es : List CalculatorEntry, es ≠ [] →
        (es.foldl (fun acc e' => saveCalculatorEntry e' acc) current).length ≤ 50) := by
  refine ⟨rfl, ?_, ?_, ?_, fun es h => saveCalculatorEntry_foldl_le es current h⟩
  · simp [saveCalculatorEntry, List.length_take]
  · intro h
    exact List.take_of_length_le (by simp only [List.length_cons]; omega)
  · intro h
    rw [saveCalculatorEntry, List.take_cons (by omega), List.dropLast_eq_take, h]

/-- A concrete calculator entry. -/
def calcEntryW : CalculatorEntry :=
  { id := "e1", userId := "u1", date := 1, mode := .percent, balance := 10000,
    riskInput := 1, entryPrice := 50000, stopLoss := 49500, leverage := 1,
    positionSize := 1/5, positionValue := 10000, dollarRisk := 100 }

/-- Witness for `saveCalculatorEntry_cap` at a concrete entry and an empty
history. -/
theorem saveCalculatorEntry_cap_witness :
    saveCalculatorEntry calcEntryW [] = [calcEntryW]
    ∧ ((List.replicate 3 calcEntryW).foldl
        (fun acc e' => saveCalculatorEntry e' acc) []).length ≤ 50 :=
  ⟨(saveCalculatorEntry_cap calcEntryW []).2.2.1 (by simp),
   (saveCalculatorEntry_cap calcEntryW []).2.2.2.2 (List.replicate 3 calcEntryW) (by simp)⟩

/-- **C10.**  `saveTrade` recomputes only the `mistakes` field of the input
trade; when some stored trade has the same id the first such trade is
replaced in place (same length, every other position untouched), otherwise
the saved trade is prepended (length grows by one). -/
theorem saveTrade_frame (tr : Trade) (L : List Trade) :
    (∃ saved : Trade,
      { saved with mistakes := tr.mistakes } = tr
      ∧ saved.mistakes = detectMistakes tr L
      ∧ (∀ i, L.findIdx? (fun t => decide (t.id = tr.id)) = some i →
          saveTrade tr L = L.set i saved)
      ∧ (L.findIdx? (fun t => decide (t.id = tr.id)) = none →
          saveTrade tr L = saved :: L))
    ∧ (∀ i, L.findIdx? (fun t => decide (t.id = tr.id)) = some i →
        (saveTrade tr L).length = L.length
        ∧ ∀ j, j ≠ i → (saveTrade tr L)[j]? = L[j]?)
    ∧ (L.findIdx? (fun t => decide (t.id = tr.id)) = none →
        (saveTrade tr L).length = L.length + 1) := by
  refine ⟨⟨{ tr with mistakes := detectMistakes tr L }, rfl, rfl, ?_, ?_⟩, ?_, ?_⟩
  · intro i hi
    simp [saveTrade, hi]
  · intro hn
    simp [saveTrade, hn]
  · intro i hi
    constructor
    · simp [saveTrade, hi]
    · intro j hj
      simp only [saveTrade, hi]
      exact List.getElem?_set_ne hj.symm
  · intro hn
    simp [saveTrade, hn]

/-- Witness for `saveTrade_frame`: saving into an empty store prepends,
growing the list to length one. -/
theorem saveTrade_frame_witness :
    (saveTrade manualTagTrade []).length = 0 + 1 :=
  (saveTrade_frame manualTagTrade []).2.2 rfl

/-- **C9.**  The user-scoped `saveTrade` and `deleteTrade` reject the call
with the `'User not authenticated'` error when neither the input carries an
owner id nor a session exists, and the store — every user's trade list — is
returned unchanged: no write happens before the rejection. -/
theorem scopedOps_reject_unauthenticated (freshId : String) (now : ℤ) (tr : Trade)
    (store : ScopedStore) (id u : String) (htr : tr.userId = "") (hu : u = "") :
    saveTradeScoped freshId now none tr store
      = (Except.error "User not authenticated", store)
    ∧ deleteTradeScoped id none none store
      = (Except.error "User not authenticated", store)
    ∧ deleteTradeScoped id (some u) none store
      = (Except.error "User not authenticated", store)
    ∧ (∀ uid, ((saveTradeScoped freshId now none tr store).2).trades uid
        = store.trades uid) := by
  have h1 : resolveUid tr.userId none = none := by simp [resolveUid, htr]
  refine ⟨?_, ?_, ?_, ?_⟩
  · simp [saveTradeScoped, h1]
  · simp [deleteTradeScoped]
  · simp [deleteTradeScoped, resolveUid, hu]
  · intro uid
    simp [saveTradeScoped, h1]

/-- The empty per-user store. -/
def emptyScopedStore : ScopedStore := ⟨fun _ => [], fun _ => []⟩

/-- A trade with no owner id. -/
def unownedTrade : Trade :=
  { id := "c9", userId := "", date := 1, pair := "BTC/USDT", direction := .long,
    entryPrice := 100, stopLoss := 90, takeProfit := 120, exitPrice := none,
    positionSize := 1, riskAmount := 1, setups := [], timeframes := [],
    emotions := [], mistakes := [], pnl := none, rMultiple := none,
    outcome := .opn, capitalImpacting := some true }

/-- Witness for `scopedOps_reject_unauthenticated` at a concrete ownerless
trade, empty session and empty store. -/
theorem scopedOps_reject_unauthenticated_witness :
    saveTradeScoped "h1" 0 none unownedTrade emptyScopedStore
      = (Except.error "User not authenticated", emptyScopedStore) :=
  (scopedOps_reject_unauthenticated "h1" 0 unownedTrade emptyScopedStore "x" ""
    rfl rfl).1

end TradeMind

namespace TradeMind

/-- **C6.**  The position-sizing computation: Units mode is valid iff
entry > 0, stop > 0, |entry - stop| > 0 and dollarRisk > 0, and then returns
positionSize = dollarRisk / |entry - stop| and positionValue =
positionSize * entry; Value mode is valid iff stopLossPercent/100 > 0 and
dollarRisk > 0, and then returns positionValue = dollarRisk /
(stopLossPercent/100) with positionSize back-calculated from a positive
entry price; for balance 10000, risk 1 %, entry 50000, stop 49500 the Units
mode yields dollarRisk 100, positionSize 0.2, positionValue 10000. -/
theorem results_spec (mode : CalculatorMode)
    (balance riskInput entryPrice stopLoss stopLossPercent : ℚ) :
    ((results .units mode balance riskInput entryPrice stopLoss stopLossPercent).valid
        = true
      ↔ 0 < entryPrice ∧ 0 < stopLoss ∧ 0 < |entryPrice - stopLoss|
          ∧ 0 < dollarRiskOf mode balance riskInput)
    ∧ (0 < entryPrice → 0 < stopLoss → 0 < |entryPrice - stopLoss| →
        0 < dollarRiskOf mode balance riskInput →
        results .units mode balance riskInput entryPrice stopLoss stopLossPercent
          = { valid := true,
              positionSize := dollarRiskOf mode balance riskInput / |entryPrice - stopLoss|,
              positionValue :=
                dollarRiskOf mode balance riskInput / |entryPrice - stopLoss| * entryPrice,
              dollarRisk := dollarRiskOf mode balance riskInput })
    ∧ ((results .value mode balance riskInput entryPrice stopLoss stopLossPercent).valid
        = true
      ↔ 0 < stopLossPercent / 100 ∧ 0 < dollarRiskOf mode balance riskInput)
    ∧ (0 < stopLossPercent / 100 → 0 < dollarRiskOf mode balance riskInput →
        results .value mode balance riskInput entryPrice stopLoss stopLossPercent
          = { valid := true,
              positionSize :=
                if 0 < entryPrice then
                  dollarRiskOf mode balance riskInput / (stopLossPercent / 100) / entryPrice
                else 0,
              positionValue := dollarRiskOf mode balance riskInput / (stopLossPercent / 100),
              dollarRisk := dollarRiskOf mode balance riskInput })
    ∧ results .units .percent 10000 1 50000 49500 0
        = { valid := true, positionSize := 1/5, positionValue := 10000,
            dollarRisk := 100 } := by
  refine ⟨?_, ?_, ?_, ?_, ?_⟩
  · simp only [results]
    split
    · simp_all
    · simp_all
  · intro h1 h2 h3 h4
    simp [results, h1, h2, h3, h4]
  · simp only [results]
    split
    · simp_all
    · simp_all
  · intro h1 h2
    simp [results, h1, h2]
  · have habs : |(50000 : ℚ) - 49500| = 500 := by norm_num
    have hval : (0:ℚ) < 50000 ∧ (0:ℚ) < 49500 ∧ (0:ℚ) < 500
        ∧ (0:ℚ) < 10000 * (1 / 100) := by norm_num
    simp only [results, dollarRiskOf, habs]
    rw [if_pos hval]
    norm_num

/-- Witness for `results_spec`: the Units-mode scenario, obtained from the
general Units-mode equation at the scenario inputs. -/
theorem results_spec_witness :
    results .units .percent 10000 1 50000 49500 0
      = { valid := true,
          positionSize := dollarRiskOf .percent 10000 1 / |(50000 : ℚ) - 49500|,
          positionValue :=
            dollarRiskOf .percent 10000 1 / |(50000 : ℚ) - 49500| * 50000,
          dollarRisk := dollarRiskOf .percent 10000 1 } :=
  (results_spec .percent 10000 1 50000 49500 0).2.1
    (by norm_num) (by norm_num) (by norm_num) (by norm_num [dollarRiskOf])

end TradeMind

namespace TradeMind

/-- **C3 (amended).**  In `getGlobalStats` the profit factor is
grossWin/grossLoss rounded to two decimals when grossLoss is non-zero; when
grossLoss is zero it is the sentinel 99.99 if grossWin is non-zero, and 0
when both grossWin and grossLoss are zero. -/
theorem getGlobalStats_profitFactor (trades : List Trade) :
    (getGlobalStats trades).profitFactor
      = if grossLossOf trades = 0 then (if grossWinOf trades = 0 then 0 else 99.99)
        else jsToFixed 2 (grossWinOf trades / grossLossOf trades) := by
  have h0 : jsToFixed 2 0 = 0 := by norm_num [jsToFixed, Int.floor_eq_iff]
  have h99 : jsToFixed 2 99.99 = 99.99 := by norm_num [jsToFixed, Int.floor_eq_iff]
  simp only [getGlobalStats, grossWinOf, grossLossOf]
  rw [apply_ite (jsToFixed 2), apply_ite (jsToFixed 2), h0, h99]

/-- A single winning trade. -/
def winOnlyTrade : Trade :=
  { id := "c3", userId := "u", date := 1, pair := "BTC/USDT", direction := .long,
    entryPrice := 50000, stopLoss := 49500, takeProfit := 51000,
    exitPrice := some 51000, positionSize := 1, riskAmount := 1, setups := [],
    timeframes := [], emotions := [], mistakes := [], pnl := some 1000,
    rMultiple := some 2, outcome := .win, capitalImpacting := some true }

/-- **C3, counterexample.**  For one winning trade with pnl 1000, grossLoss
is 0 and grossWin is 1000, but the profit factor is the sentinel 99.99 — not
grossWin as the claim states; and for an empty list (both gross sums zero)
the profit factor is 0, not a large sentinel. -/
theorem getGlobalStats_profitFactor_counterexample :
    grossLossOf [winOnlyTrade] = 0
    ∧ grossWinOf [winOnlyTrade] = 1000
    ∧ (getGlobalStats [winOnlyTrade]).profitFactor = 99.99
    ∧ ¬ (getGlobalStats [winOnlyTrade]).profitFactor = grossWinOf [winOnlyTrade]
    ∧ (getGlobalStats []).profitFactor = 0 := by
  have hWf : (closedSorted [winOnlyTrade]).filter
      (fun t => decide (t.outcome = Outcome.win)) = [winOnlyTrade] := rfl
  have hLf : (closedSorted [winOnlyTrade]).filter
      (fun t => decide (t.outcome = Outcome.loss)) = [] := rfl
  have hW : grossWinOf [winOnlyTrade] = 1000 := by
    show sumPnl ((closedSorted [winOnlyTrade]).filter
      (fun t => decide (t.outcome = Outcome.win))) = 1000
    rw [hWf]
    norm_num [sumPnl, pnlOf, winOnlyTrade, List.foldl_cons, List.foldl_nil]
  have hL : grossLossOf [winOnlyTrade] = 0 := by
    show |sumPnl ((closedSorted [winOnlyTrade]).filter
      (fun t => decide (t.outcome = Outcome.loss)))| = 0
    rw [hLf]
    norm_num [sumPnl, List.foldl_nil]
  have hPF : (getGlobalStats [winOnlyTrade]).profitFactor = 99.99 := by
    simp only [getGlobalStats, hWf, hLf]
    norm_num [sumPnl, pnlOf, winOnlyTrade, jsToFixed, Int.floor_eq_iff,
      List.foldl_cons, List.foldl_nil]
  have hPF0 : (getGlobalStats []).profitFactor = 0 := by
    simp only [getGlobalStats]
    norm_num [closedSorted, List.insertionSort, List.filter_nil, sumPnl,
      List.foldl_nil, jsToFixed, Int.floor_eq_iff]
  exact ⟨hL, hW, hPF, by rw [hPF, hW]; norm_num, hPF0⟩

/-- Mapping the running equity out of the equity-curve fold of
`computeCapitalStats` yields the running balances of the pnl list. -/
theorem capStep_points (realized : ℚ) (l : List Trade) (acc : CapAcc) :
    ((l.foldl (capStep realized) acc).points).map (fun p => p.equity)
      = acc.points.map (fun p => p.equity) ++ cumEquity acc.equity (l.map pnlOf) := by
  induction l generalizing acc with
  | nil => simp [cumEquity]
  | cons t ts ih =>
    rw [List.foldl_cons, ih]
    simp [capStep, cumEquity, List.append_assoc]

/-- The peak tracked by the equity-curve fold is the maximum of the initial
peak and the running balances. -/
theorem capStep_peak (realized : ℚ) (l : List Trade) (acc : CapAcc) :
    (l.foldl (capStep realized) acc).peakEquity
      = (cumEquity acc.equity (l.map pnlOf)).foldl max acc.peakEquity := by
  induction l generalizing acc with
  | nil => simp [cumEquity]
  | cons t ts ih =>
    rw [List.foldl_cons, ih]
    simp [capStep, cumEquity]

/-- First scenario trade: +500 on day one. -/
def capTradeUp : Trade :=
  { id := "p1", userId := "u", date := 1, pair := "BTC/USDT", direction := .long,
    entryPrice := 100, stopLoss := 95, takeProfit := 110, exitPrice := some 105,
    positionSize := 100, riskAmount := 1, setups := [], timeframes := [],
    emotions := [], mistakes := [], pnl := some 500, rMultiple := some 1,
    outcome := .win, capitalImpacting := some true }

/-- Second scenario trade: -800 on day two. -/
def capTradeDown : Trade :=
  { id := "p2", userId := "u", date := 2, pair := "BTC/USDT", direction := .long,
    entryPrice := 100, stopLoss := 92, takeProfit := 110, exitPrice := some 92,
    positionSize := 100, riskAmount := 1, setups := [], timeframes := [],
    emotions := [], mistakes := [], pnl := some (-800), rMultiple := some (-1),
    outcome := .loss, capitalImpacting := some true }

/-- The two-trade capital scenario. -/
def capScenario : List Trade := [capTradeUp, capTradeDown]

/-- Capital settings with starting balance 10000. -/
def capSettings : CapitalSettings :=
  { startingBalance := 10000, maxDrawdownAlertPct := 20, defaultRiskPerTradePct := some 1 }

/-- **C7 (amended).**  `computeCapitalStats` builds the equity curve as the
starting balance plus cumulative pnl over closed capital-impacting trades in
chronological order and tracks the peak starting from the starting balance,
but reports the drawdown percentage as the maximum drawdown in dollars
divided by the final peak equity (the maximum over the whole curve and the
starting balance) times 100 — not by the peak at the point where the
drawdown occurred; for starting balance 10000 and closed trades +500 then
-800 the curve is [10500, 9700], maxDrawdown = 800 and maxDrawdownPct =
800/10500*100 (here the final peak equals the peak at the drawdown). -/
theorem computeCapitalStats_curve (trades : List Trade) (settings : CapitalSettings) :
    ((computeCapitalStats trades settings).equityCurve.map (fun p => p.equity)
        = cumEquity settings.startingBalance ((capSortedOf trades).map pnlOf))
    ∧ ((computeCapitalStats trades settings).maxDrawdownPct
        = (if 0 < ((computeCapitalStats trades settings).equityCurve.map
              (fun p => p.equity)).foldl max settings.startingBalance
           then (computeCapitalStats trades settings).maxDrawdown
             / (((computeCapitalStats trades settings).equityCurve.map
                  (fun p => p.equity)).foldl max settings.startingBalance) * 100
           else 0))
    ∧ (computeCapitalStats capScenario capSettings).equityCurve.map (fun p => p.equity)
        = [10500, 9700]
    ∧ (computeCapitalStats capScenario capSettings).maxDrawdown = 800
    ∧ (computeCapitalStats capScenario capSettings).maxDrawdownPct
        = 800 / 10500 * 100 := by
  have hgen : ∀ (tr : List Trade) (s : CapitalSettings),
      (computeCapitalStats tr s).equityCurve.map (fun p => p.equity)
        = cumEquity s.startingBalance ((capSortedOf tr).map pnlOf) := by
    intro tr s
    simp only [computeCapitalStats]
    rw [capStep_points]
    simp
  have hsorted : capSortedOf capScenario = [capTradeUp, capTradeDown] := rfl
  have hpnls : (capSortedOf capScenario).map pnlOf = [500, -800] := rfl
  refine ⟨hgen trades settings, ?_, ?_, ?_, ?_⟩
  · simp only [computeCapitalStats]
    rw [capStep_points, capStep_peak]
    simp
  · rw [hgen capScenario capSettings, hpnls]
    norm_num [cumEquity, capSettings]
  · simp only [computeCapitalStats, hsorted, List.foldl_cons, List.foldl_nil]
    norm_num [capStep, pnlOf, capTradeUp, capTradeDown, capSettings, max_def]
  · simp only [computeCapitalStats, hsorted, List.foldl_cons, List.foldl_nil]
    norm_num [capStep, pnlOf, capTradeUp, capTradeDown, capSettings, max_def]

/-- Third trade of the counterexample: +2000 on day three, pushing the final
peak above the peak at which the maximum drawdown occurred. -/
def capTradeUp2 : Trade :=
  { id := "p3", userId := "u", date := 3, pair := "BTC/USDT", direction := .long,
    entryPrice := 100, stopLoss := 95, takeProfit := 130, exitPrice := some 120,
    positionSize := 100, riskAmount := 1, setups := [], timeframes := [],
    emotions := [], mistakes := [], pnl := some 2000, rMultiple := some 4,
    outcome := .win, capitalImpacting := some true }

/-- The three-trade capital scenario +500, -800, +2000. -/
def capCounterScenario : List Trade := [capTradeUp, capTradeDown, capTradeUp2]

/-- **C7, counterexample.**  With starting balance 10000 and pnls
+500, -800, +2000 the equity curve is [10500, 9700, 11700]; the maximum
drawdown of 800 occurs at the second point, where the running peak is 10500,
yet the reported percentage is 800/11700*100 — computed against the final
peak 11700 — and not 800/10500*100 as "drawdown dollars divided by the peak
equity at that point" requires. -/
theorem computeCapitalStats_ddPct_counterexample :
    (computeCapitalStats capCounterScenario capSettings).equityCurve.map
        (fun p => p.equity) = [10500, 9700, 11700]
    ∧ (computeCapitalStats capCounterScenario capSettings).maxDrawdown = 800
    ∧ (computeCapitalStats capCounterScenario capSettings).maxDrawdownPct
        = 800 / 11700 * 100
    ∧ ¬ (computeCapitalStats capCounterScenario capSettings).maxDrawdownPct
        = 800 / 10500 * 100 := by
  have hsorted : capSortedOf capCounterScenario
      = [capTradeUp, capTradeDown, capTradeUp2] := rfl
  have hpnls : (capSortedOf capCounterScenario).map pnlOf = [500, -800, 2000] := rfl
  have hcurve : (computeCapitalStats capCounterScenario capSettings).equityCurve.map
      (fun p => p.equity) = [10500, 9700, 11700] := by
    simp only [computeCapitalStats]
    rw [capStep_points, hpnls]
    norm_num [cumEquity, capSettings]
  have hpct : (computeCapitalStats capCounterScenario capSettings).maxDrawdownPct
      = 800 / 11700 * 100 := by
    simp only [computeCapitalStats, hsorted, List.foldl_cons, List.foldl_nil]
    norm_num [capStep, pnlOf, capTradeUp, capTradeDown, capTradeUp2, capSettings, max_def]
  refine ⟨hcurve, ?_, hpct, ?_⟩
  · simp only [computeCapitalStats, hsorted, List.foldl_cons, List.foldl_nil]
    norm_num [capStep, pnlOf, capTradeUp, capTradeDown, capTradeUp2, capSettings, max_def]
  · rw [hpct]
    norm_num

end TradeMind
